import Mathlib

/-!
Verification development for django-database-constraints.

The repository wraps Django's form save flow so that database
IntegrityErrors raised at commit time become user-facing
ValidationErrors attached to the form, inside a transaction boundary.

This file shallowly embeds the code of
`django_database_constraints/forms.py` and
`django_database_constraints/views.py`.  The Django framework pieces
the code uses (ValidationError construction and `update_error_dict`,
`transaction.atomic`, `force_text`, the form `_errors` dict) are
modelled as the environment: message payloads are strings, the form
error collection is an insertion-ordered association list (as a Python
dict is), and the transaction context manager commits the new database
state on normal exit and restores the entry state on exception.
Database state is an abstract state type threaded explicitly; a
`save()` call is a state transformer that either returns a value or
raises.
-/

namespace DDC

/-- Models `django.db.IntegrityError`: a low-level database exception
carrying its error text (what Python's `str(ierror)` returns). -/
structure IntegrityError where
  message : String
deriving DecidableEq, Repr

/-- `str(ierror)` on an IntegrityError. -/
def istr (ierror : IntegrityError) : String := ierror.message

/-- The payload of a Django `ValidationError`: either a plain list of
messages (no field association: constructed from a string or a list)
or a mapping field name to message list (constructed from a dict). -/
inductive VEContent where
  | vlist (messages : List String)
  | vdict (d : List (String × List String))
deriving DecidableEq, Repr

/-- Models `django.forms.ValidationError`: field-scoped (or plain)
message lists plus the `cause` attribute that
`validationerror_from_integrityerror` stamps. -/
structure ValidationError where
  content : VEContent
  cause : Option IntegrityError
deriving DecidableEq, Repr

/-- `django.forms.forms.NON_FIELD_ERRORS`. -/
def NON_FIELD_ERRORS : String := "__all__"

/-- Models Django's `ValidationError.update_error_dict({})`: a
dict-built error yields its own field mapping; an error with no field
association is filed under `NON_FIELD_ERRORS`. -/
def ValidationError.update_error_dict (e : ValidationError) :
    List (String × List String) :=
  match e.content with
  | VEContent.vdict d => d
  | VEContent.vlist l => [(NON_FIELD_ERRORS, l)]

/-- Models `django.utils.encoding.force_text` on an already-decoded
message (the identity on strings). -/
def force_text (s : String) : String := s

/-- A convertor: `(IntegrityError) -> Optional[ValidationError]`. -/
def Convertor : Type := IntegrityError → Option ValidationError

/-- `fallback_conversion(ierror)`: wraps the raw error text as a
single message with no field association
(`forms.ValidationError([str(ierror)])`). -/
def fallback_conversion (ierror : IntegrityError) : Option ValidationError :=
  some ⟨VEContent.vlist [istr ierror], none⟩

/-- `DEFAULT_CONVERTORS = [ fallback_conversion ]`. -/
def DEFAULT_CONVERTORS : List Convertor := [fallback_conversion]

/-- The `for convertor in convertors` loop of
`validationerror_from_integrityerror`: try each convertor in order; on
the first non-null result `v`, set `v.cause = ierror` and return it;
fall off the end (Python: implicitly return `None`) otherwise. -/
def convertor_loop : List Convertor → IntegrityError → Option ValidationError
  | [], _ => none
  | c :: cs, ierror =>
    match c ierror with
    | some v => some { v with cause := some ierror }
    | none => convertor_loop cs ierror

/-- `validationerror_from_integrityerror(ierror, convertors=None)`.
`convertors.extend(DEFAULT_CONVERTORS)` mutates the caller's list in
place when one was supplied; the embedding threads that effect
explicitly, returning both the Python return value and the post-call
contents of the convertors list the loop ran over (which, when the
caller passed a list, are the new contents of the caller's list). -/
def validationerror_from_integrityerror (ierror : IntegrityError)
    (convertors : Option (List Convertor)) :
    Option ValidationError × List Convertor :=
  let convertors' :=
    (match convertors with
     | none => []
     | some l => l) ++ DEFAULT_CONVERTORS
  (convertor_loop convertors' ierror, convertors')

/-- Models the Django form objects the code manipulates: an
insertion-ordered mapping `_errors` from field name to message list
(Python's `form._errors` dict of `ErrorList`s). -/
structure Form where
  _errors : List (String × List String)
deriving DecidableEq, Repr

/-- First-match lookup in the `_errors` association list (Python dict
access; keys are unique in a real dict). -/
def errLookup : List (String × List String) → String → Option (List String)
  | [], _ => none
  | (g, ms) :: rest, f => if g = f then some ms else errLookup rest f

/-- The mutation performed by `add_error_to_form` on the `_errors`
dict: if `field` is absent, a fresh empty `ErrorList` is inserted (at
the end, as Python dict insertion does) and then `error` appended;
otherwise `error` is appended to the existing list. -/
def addErrAux : List (String × List String) → String → String →
    List (String × List String)
  | [], f, m => [(f, [m])]
  | (g, ms) :: rest, f, m =>
    if g = f then (g, ms ++ [m]) :: rest else (g, ms) :: addErrAux rest f m

/-- `add_error_to_form(form, error, field=None)`: a `None` field is
replaced by `NON_FIELD_ERRORS`, then `error` is appended under that
key. -/
def add_error_to_form (form : Form) (error : String)
    (field : Option String) : Form :=
  let field' :=
    match field with
    | none => NON_FIELD_ERRORS
    | some f => f
  ⟨addErrAux form._errors field' error⟩

/-- Message lists at a field, reading a missing bucket as empty (what
`form.errors.get(field, [])` observes). -/
def errsAt (form : Form) (f : String) : List String :=
  (errLookup form._errors f).getD []

/-- The body of the `for field, messages in error_dict.items()` loop of
`transactional_save`: flatten the field's messages through `force_text`
into `message_list`, then append each onto the form with
`add_error_to_form` under that field. -/
def add_field_messages (form : Form) (fm : String × List String) : Form :=
  let message_list := fm.2.map force_text
  message_list.foldl (fun form m => add_error_to_form form m (some fm.1))
    form

/-- The body of the `except forms.ValidationError` handler of
`transactional_save`: compute `error_dict = e.update_error_dict({})`,
then run the per-field loop over its items. -/
def mutate_form_with_error (form : Form) (e : ValidationError) : Form :=
  (e.update_error_dict).foldl add_field_messages form

/-- What a `form.save()` can raise inside the transaction: a database
`IntegrityError` or a `ValidationError` raised directly by the form. -/
inductive SaveExn where
  | integrity (e : IntegrityError)
  | validation (e : ValidationError)
deriving DecidableEq, Repr

/-- The observable outcome of `transactional_save`: a normal return, a
raised `ValidationError`, or the `raise None` TypeError Python would
produce if the conversion chain ever returned null (never reached, as
proved below). -/
inductive TSaveOutcome (α : Type) where
  | ok (a : α)
  | raisedValidation (e : ValidationError)
  | raisedNone
deriving DecidableEq, Repr

/-- `transactional_save(form, convertors=None, tx_context_manager=None)`.
`save` is the form's `save()` as a state transformer on the database
state `σ`; the default `transaction.atomic()` context manager commits
the transformed state on normal exit and restores the entry state when
`save` raises.  An `IntegrityError` is converted via
`validationerror_from_integrityerror` and the result raised; any
`ValidationError` (direct or converted) mutates the form's `_errors`
via the handler loop and is re-raised.  Returns (outcome, form after
mutation, database state after commit or rollback). -/
def transactional_save {σ α : Type} (form : Form)
    (convertors : Option (List Convertor))
    (save : σ → Except SaveExn α × σ) (s : σ) :
    TSaveOutcome α × Form × σ :=
  match save s with
  | (Except.ok a, s') => (TSaveOutcome.ok a, form, s')
  | (Except.error e, _) =>
    match e with
    | SaveExn.integrity ierror =>
      match (validationerror_from_integrityerror ierror convertors).1 with
      | some v =>
        (TSaveOutcome.raisedValidation v, mutate_form_with_error form v, s)
      | none => (TSaveOutcome.raisedNone, form, s)
    | SaveExn.validation ve =>
      (TSaveOutcome.raisedValidation ve, mutate_form_with_error form ve, s)

/-- The observable outcome of `TransactionalModelFormMixin.form_valid`:
a response together with the object stored on `self.object`, or an
exception the `except django.forms.ValidationError` clause does not
catch (never reached, as proved below). -/
inductive FormValidOutcome (ρ α : Type) where
  | response (r : ρ) (storedObject : Option α)
  | uncaught

/-- `TransactionalModelFormMixin.form_valid(self, form)`.
`ve_from_ie` is the mixin's overridable
`validationerror_from_integrityerror` method (default returns `None`);
`super_form_valid` and `form_invalid` are the inherited
`form_valid`/`form_invalid` of the view.  It builds a one-element
convertors list from the method, runs the transactional save, stores
the saved object and delegates to the parent on success, and returns
`form_invalid(form)` when a `ValidationError` is caught. -/
def form_valid {σ α ρ : Type}
    (ve_from_ie : IntegrityError → Option ValidationError)
    (super_form_valid : Form → ρ) (form_invalid : Form → ρ)
    (form : Form) (save : σ → Except SaveExn α × σ) (s : σ) :
    FormValidOutcome ρ α × Form × σ :=
  let convertors : List Convertor := [fun i => ve_from_ie i]
  match transactional_save form (some convertors) save s with
  | (TSaveOutcome.ok a, form', s') =>
    (FormValidOutcome.response (super_form_valid form') (some a), form', s')
  | (TSaveOutcome.raisedValidation _, form', s') =>
    (FormValidOutcome.response (form_invalid form') none, form', s')
  | (TSaveOutcome.raisedNone, form', s') =>
    (FormValidOutcome.uncaught, form', s')

/-! ## Model of the test database

`tests.py` exercises the save protocol against a model with a single
unique integer column.  The table is modelled as the list of values in
that column; the database's unique-constraint insert raises an
IntegrityError and leaves the table unchanged when the value is
already present, and appends the row otherwise.  The concurrency tests
serialize the two racing transactions through the database's commit
ordering, so the race is modelled as the two saves running in the
order the database picks. -/

/-- The table of the test model: values of its unique column. -/
abbrev DB : Type := List Int

/-- The error text the database reports for the unique violation. -/
def unique_violation : String := "column unique is not unique"

/-- `form.save()` of the test form: insert `v` subject to the unique
constraint. -/
def testmodel_save (v : Int) : DB → Except SaveExn Int × DB :=
  fun db =>
    if v ∈ db then (Except.error (SaveExn.integrity ⟨unique_violation⟩), db)
    else (Except.ok v, db ++ [v])

/-! ## Concrete fixtures used by the witnesses -/

/-- A sample IntegrityError. -/
def ieBoom : IntegrityError := ⟨"boom"⟩

/-- A sample direct ValidationError with a field dict. -/
def veDict : ValidationError :=
  ⟨VEContent.vdict [("unique", ["some message", "some other message"])], none⟩

/-- A form with no errors (a form that passed validation). -/
def emptyForm : Form := ⟨[]⟩

/-- A save that succeeds, returning 7 and bumping the state. -/
def saveOk : Nat → Except SaveExn Nat × Nat :=
  fun s => (Except.ok 7, s + 1)

/-- A save that raises an IntegrityError after touching the state. -/
def saveFailInteg : Nat → Except SaveExn Nat × Nat :=
  fun s => (Except.error (SaveExn.integrity ieBoom), s + 1)

/-- A save that raises a dict-shaped ValidationError directly. -/
def saveFailValid : Nat → Except SaveExn Nat × Nat :=
  fun s => (Except.error (SaveExn.validation veDict), s + 1)

/-! ## Helper lemmas about the convertor loop -/

/-- The loop result is unchanged by appending further convertors once
it has produced a value. -/
theorem convertor_loop_append_of_some {l : List Convertor}
    {ie : IntegrityError} {v : ValidationError} (l' : List Convertor)
    (h : convertor_loop l ie = some v) :
    convertor_loop (l ++ l') ie = some v := by
  induction l with
  | nil => simp [convertor_loop] at h
  | cons c cs ih =>
    simp only [List.cons_append, convertor_loop] at h ⊢
    cases hc : c ie with
    | some w => simpa [hc] using (by simpa [hc] using h)
    | none => simp only [hc] at h ⊢; exact ih h

/-- Any list ending in `DEFAULT_CONVERTORS` makes the loop produce a
value: `fallback_conversion` is total. -/
theorem convertor_loop_total (l : List Convertor) (ie : IntegrityError) :
    ∃ v, convertor_loop (l ++ DEFAULT_CONVERTORS) ie = some v := by
  induction l with
  | nil =>
    exact ⟨⟨VEContent.vlist [istr ie], some ie⟩,
      by simp [DEFAULT_CONVERTORS, convertor_loop, fallback_conversion]⟩
  | cons c cs ih =>
    simp only [List.cons_append, convertor_loop]
    cases hc : c ie with
    | some w => exact ⟨{ w with cause := some ie }, by simp⟩
    | none => simpa using ih

/-- Every value the loop returns carries the original error as its
`cause`. -/
theorem convertor_loop_cause {l : List Convertor} {ie : IntegrityError}
    {v : ValidationError} (h : convertor_loop l ie = some v) :
    v.cause = some ie := by
  induction l with
  | nil => simp [convertor_loop] at h
  | cons c cs ih =>
    simp only [convertor_loop] at h
    cases hc : c ie with
    | some w => simp [hc] at h; simp [← h]
    | none => simp only [hc] at h; exact ih h

/-- A produced loop value comes from the first convertor in the list
that returns non-null; all convertors before it returned null. -/
theorem convertor_loop_decompose {l : List Convertor} {ie : IntegrityError}
    {v : ValidationError} (h : convertor_loop l ie = some v) :
    ∃ pre c post w, l = pre ++ c :: post ∧ (∀ c' ∈ pre, c' ie = none) ∧
      c ie = some w ∧ v = { w with cause := some ie } := by
  induction l with
  | nil => simp [convertor_loop] at h
  | cons c cs ih =>
    simp only [convertor_loop] at h
    cases hc : c ie with
    | some w =>
      refine ⟨[], c, cs, w, by simp, by simp, hc, ?_⟩
      simp [hc] at h
      exact h.symm
    | none =>
      simp only [hc] at h
      obtain ⟨pre, c', post, w, hl, hpre, hc', hv⟩ := ih h
      refine ⟨c :: pre, c', post, w, by simp [hl], ?_, hc', hv⟩
      intro x hx
      rcases List.mem_cons.mp hx with rfl | hx
      · exact hc
      · exact hpre x hx

/-- The convertor list the loop of `validationerror_from_integrityerror`
runs over: the supplied list (empty when null) followed by the built-in
defaults. -/
theorem vfi_run (ie : IntegrityError) (conv : Option (List Convertor)) :
    validationerror_from_integrityerror ie conv =
      (convertor_loop ((match conv with
        | none => []
        | some l => l) ++ DEFAULT_CONVERTORS) ie,
       (match conv with
        | none => []
        | some l => l) ++ DEFAULT_CONVERTORS) := rfl

/-- The conversion function never returns null. -/
theorem vfi_isSome (ie : IntegrityError) (conv : Option (List Convertor)) :
    ∃ v, (validationerror_from_integrityerror ie conv).1 = some v := by
  rw [vfi_run]
  exact convertor_loop_total _ ie

/-- Conversion with `convertors=None` runs only the fallback: the
result wraps the raw error text with the cause stamped. -/
theorem vfi_none (ie : IntegrityError) :
    (validationerror_from_integrityerror ie none).1 =
      some ⟨VEContent.vlist [istr ie], some ie⟩ := rfl

/-! ## Helper lemmas about the form error collection -/

/-- Effect of one `_errors` mutation on lookups: the target field's
list gains the message (a missing bucket starts empty); other fields
are untouched. -/
theorem errLookup_addErrAux (errors : List (String × List String))
    (f g m : String) :
    errLookup (addErrAux errors f m) g =
      if g = f then some ((errLookup errors f).getD [] ++ [m])
      else errLookup errors g := by
  induction errors with
  | nil =>
    by_cases h : g = f
    · simp [addErrAux, errLookup, h]
    · simp [addErrAux, errLookup, h, Ne.symm h]
  | cons p rest ih =>
    obtain ⟨k, ms⟩ := p
    by_cases hk : k = f
    · subst hk
      by_cases hg : g = k
      · simp [addErrAux, errLookup, hg]
      · simp [addErrAux, errLookup, hg, Ne.symm hg]
    · by_cases hg : k = g
      · subst hg
        simp [addErrAux, errLookup, hk, Ne.symm hk]
      · simp [addErrAux, errLookup, hk, hg, ih]

/-- `add_error_to_form` seen through `errsAt`. -/
theorem errsAt_add_error_to_form (form : Form) (m f g : String) :
    errsAt (add_error_to_form form m (some f)) g =
      if g = f then errsAt form f ++ [m] else errsAt form g := by
  simp only [errsAt, add_error_to_form, errLookup_addErrAux]
  by_cases h : g = f
  · simp [h]
  · simp [h]

/-- Appending a list of messages under one field, one at a time. -/
theorem errsAt_foldl_messages (msgs : List String) (form : Form)
    (f g : String) :
    errsAt (msgs.foldl (fun form m => add_error_to_form form m (some f))
        form) g =
      if g = f then errsAt form f ++ msgs else errsAt form g := by
  induction msgs generalizing form with
  | nil => by_cases h : g = f <;> simp [h]
  | cons m ms ih =>
    simp only [List.foldl_cons]
    rw [ih]
    by_cases h : g = f <;> simp [h, errsAt_add_error_to_form]

/-- The per-field loop body seen through `errsAt`. -/
theorem errsAt_add_field_messages (form : Form) (f : String)
    (msgs : List String) (g : String) :
    errsAt (add_field_messages form (f, msgs)) g =
      if g = f then errsAt form f ++ msgs else errsAt form g := by
  have hmap : msgs.map force_text = msgs := by
    rw [show force_text = id from rfl, List.map_id]
  simp only [add_field_messages, hmap]
  exact errsAt_foldl_messages msgs form f g

/-- Fields not named in the error dict are untouched by the handler
loop. -/
theorem errsAt_fold_items_not_mem (d : List (String × List String))
    (form : Form) (g : String) (hg : g ∉ d.map Prod.fst) :
    errsAt (d.foldl add_field_messages form) g = errsAt form g := by
  induction d generalizing form with
  | nil => rfl
  | cons fm rest ih =>
    obtain ⟨f, msgs⟩ := fm
    simp only [List.map_cons, List.mem_cons] at hg
    push_neg at hg
    simp only [List.foldl_cons]
    rw [ih _ hg.2, errsAt_add_field_messages]
    simp [hg.1]

/-- A field named in the error dict (keys unique, as in a Python dict)
ends with exactly its dict messages appended. -/
theorem errsAt_fold_items_mem (d : List (String × List String))
    (form : Form) (f : String) (msgs : List String)
    (hnd : (d.map Prod.fst).Nodup) (hmem : (f, msgs) ∈ d) :
    errsAt (d.foldl add_field_messages form) f = errsAt form f ++ msgs := by
  induction d generalizing form with
  | nil => simp at hmem
  | cons fm rest ih =>
    obtain ⟨f0, msgs0⟩ := fm
    simp only [List.map_cons, List.nodup_cons] at hnd
    simp only [List.foldl_cons]
    rcases List.mem_cons.mp hmem with heq | hmem'
    · injection heq with hf hm
      subst hf
      subst hm
      rw [errsAt_fold_items_not_mem rest _ f hnd.1,
        errsAt_add_field_messages]
      simp
    · have hne : f ≠ f0 := by
        intro hc
        subst hc
        exact hnd.1 (List.mem_map.mpr ⟨(f, msgs), hmem', rfl⟩)
      rw [ih _ hnd.2 hmem', errsAt_add_field_messages]
      simp [hne]

/-- How the exception-handler mutation reads through `errsAt`: a
dict-built error (unique keys, as a Python dict has) appends exactly
its messages under exactly its fields and touches nothing else; an
error with no field association appends its messages to the non-field
bucket only. -/
theorem mutate_form_with_error_spec (form : Form) (ve : ValidationError) :
    (∀ d, ve.content = VEContent.vdict d → (d.map Prod.fst).Nodup →
      (∀ f msgs, (f, msgs) ∈ d →
        errsAt (mutate_form_with_error form ve) f = errsAt form f ++ msgs) ∧
      (∀ g, g ∉ d.map Prod.fst →
        errsAt (mutate_form_with_error form ve) g = errsAt form g)) ∧
    (∀ l, ve.content = VEContent.vlist l →
      errsAt (mutate_form_with_error form ve) NON_FIELD_ERRORS =
        errsAt form NON_FIELD_ERRORS ++ l ∧
      ∀ g, g ≠ NON_FIELD_ERRORS →
        errsAt (mutate_form_with_error form ve) g = errsAt form g) := by
  constructor
  · intro d hd hnd
    have hud : ve.update_error_dict = d := by
      simp [ValidationError.update_error_dict, hd]
    constructor
    · intro f msgs hmem
      simp only [mutate_form_with_error, hud]
      exact errsAt_fold_items_mem d form f msgs hnd hmem
    · intro g hg
      simp only [mutate_form_with_error, hud]
      exact errsAt_fold_items_not_mem d form g hg
  · intro l hl
    have hud : ve.update_error_dict = [(NON_FIELD_ERRORS, l)] := by
      simp [ValidationError.update_error_dict, hl]
    constructor
    · simp only [mutate_form_with_error, hud, List.foldl_cons,
        List.foldl_nil]
      rw [errsAt_add_field_messages]
      simp
    · intro g hg
      simp only [mutate_form_with_error, hud, List.foldl_cons,
        List.foldl_nil]
      rw [errsAt_add_field_messages]
      simp [hg]

/-! ## Claim theorems -/

/-- C1: when the form's save raises an IntegrityError inside
`transactional_save`, the IntegrityError never escapes: the exception
that propagates to the caller is the ValidationError produced by the
conversion chain; and when the save raises a ValidationError directly,
that same ValidationError propagates — it is never swallowed. -/
theorem tsave_never_leaks_integrityerror {σ α : Type} (form : Form)
    (conv : Option (List Convertor)) (save : σ → Except SaveExn α × σ)
    (s s₂ : σ) (e : SaveExn) (h : save s = (Except.error e, s₂)) :
    (∀ ie, e = SaveExn.integrity ie →
      ∃ v, (validationerror_from_integrityerror ie conv).1 = some v ∧
        (transactional_save form conv save s).1 =
          TSaveOutcome.raisedValidation v) ∧
    (∀ ve, e = SaveExn.validation ve →
      (transactional_save form conv save s).1 =
        TSaveOutcome.raisedValidation ve) := by
  constructor
  · rintro ie rfl
    obtain ⟨v, hv⟩ := vfi_isSome ie conv
    refine ⟨v, hv, ?_⟩
    simp [transactional_save, h, hv]
  · rintro ve rfl
    simp [transactional_save, h]

/-- Witness for C1: a save raising an IntegrityError, and one raising
a ValidationError directly, both observed at concrete inputs. -/
theorem tsave_never_leaks_integrityerror_witness :
    saveFailInteg 0 = (Except.error (SaveExn.integrity ieBoom), 1) ∧
    ((∀ ie, SaveExn.integrity ieBoom = SaveExn.integrity ie →
      ∃ v, (validationerror_from_integrityerror ie none).1 = some v ∧
        (transactional_save emptyForm none saveFailInteg 0).1 =
          TSaveOutcome.raisedValidation v) ∧
    (∀ ve, SaveExn.integrity ieBoom = SaveExn.validation ve →
      (transactional_save emptyForm none saveFailInteg 0).1 =
        TSaveOutcome.raisedValidation ve)) :=
  ⟨rfl, tsave_never_leaks_integrityerror emptyForm none saveFailInteg 0 1
    (SaveExn.integrity ieBoom) rfl⟩

/-- C3: when `transactional_save` observes a ValidationError — raised
directly by the form's save or synthesized from an IntegrityError by
the conversion chain — the error's per-field message lists are
appended onto the form's error collection under exactly the fields the
error names (a dict-built error yields exactly those messages under
exactly those fields, the dict's keys being unique as a Python dict's
are; an error carrying no field name lands in the non-field bucket),
and the same exception is re-raised after the form is mutated. -/
theorem tsave_appends_errors_and_reraises {σ α : Type} (form : Form)
    (conv : Option (List Convertor)) (save : σ → Except SaveExn α × σ)
    (s s₂ : σ) (e : SaveExn) (h : save s = (Except.error e, s₂)) :
    ∃ ve, (transactional_save form conv save s).1 =
        TSaveOutcome.raisedValidation ve ∧
      (e = SaveExn.validation ve ∨
        ∃ ie, e = SaveExn.integrity ie ∧
          (validationerror_from_integrityerror ie conv).1 = some ve) ∧
      (transactional_save form conv save s).2.1 =
        mutate_form_with_error form ve ∧
      (∀ d, ve.content = VEContent.vdict d → (d.map Prod.fst).Nodup →
        (∀ f msgs, (f, msgs) ∈ d →
          errsAt (mutate_form_with_error form ve) f =
            errsAt form f ++ msgs) ∧
        (∀ g, g ∉ d.map Prod.fst →
          errsAt (mutate_form_with_error form ve) g = errsAt form g)) ∧
      (∀ l, ve.content = VEContent.vlist l →
        errsAt (mutate_form_with_error form ve) NON_FIELD_ERRORS =
          errsAt form NON_FIELD_ERRORS ++ l ∧
        ∀ g, g ≠ NON_FIELD_ERRORS →
          errsAt (mutate_form_with_error form ve) g = errsAt form g) := by
  cases e with
  | integrity ie =>
    obtain ⟨v, hv⟩ := vfi_isSome ie conv
    refine ⟨v, ?_, Or.inr ⟨ie, rfl, hv⟩, ?_,
      (mutate_form_with_error_spec form v).1,
      (mutate_form_with_error_spec form v).2⟩
    · simp [transactional_save, h, hv]
    · simp [transactional_save, h, hv]
  | validation ve =>
    refine ⟨ve, ?_, Or.inl rfl, ?_,
      (mutate_form_with_error_spec form ve).1,
      (mutate_form_with_error_spec form ve).2⟩
    · simp [transactional_save, h]
    · simp [transactional_save, h]

/-- Witness for C3: a save raising a dict-shaped ValidationError at a
concrete input. -/
theorem tsave_appends_errors_and_reraises_witness :
    saveFailValid 0 = (Except.error (SaveExn.validation veDict), 1) ∧
    ∃ ve, (transactional_save emptyForm none saveFailValid 0).1 =
        TSaveOutcome.raisedValidation ve ∧
      (SaveExn.validation veDict = SaveExn.validation ve ∨
        ∃ ie, SaveExn.validation veDict = SaveExn.integrity ie ∧
          (validationerror_from_integrityerror ie none).1 = some ve) ∧
      (transactional_save emptyForm none saveFailValid 0).2.1 =
        mutate_form_with_error emptyForm ve ∧
      (∀ d, ve.content = VEContent.vdict d → (d.map Prod.fst).Nodup →
        (∀ f msgs, (f, msgs) ∈ d →
          errsAt (mutate_form_with_error emptyForm ve) f =
            errsAt emptyForm f ++ msgs) ∧
        (∀ g, g ∉ d.map Prod.fst →
          errsAt (mutate_form_with_error emptyForm ve) g =
            errsAt emptyForm g)) ∧
      (∀ l, ve.content = VEContent.vlist l →
        errsAt (mutate_form_with_error emptyForm ve) NON_FIELD_ERRORS =
          errsAt emptyForm NON_FIELD_ERRORS ++ l ∧
        ∀ g, g ≠ NON_FIELD_ERRORS →
          errsAt (mutate_form_with_error emptyForm ve) g =
            errsAt emptyForm g) :=
  ⟨rfl, tsave_appends_errors_and_reraises emptyForm none saveFailValid 0 1
    (SaveExn.validation veDict) rfl⟩

/-- C4: the save runs inside a single transaction boundary: when it
completes, the transformed database state is committed as a whole;
when it raises, the database state handed back to the caller is
exactly the entry state — the transaction is rolled back and none of
the save's effects survive. -/
theorem tsave_commits_or_rolls_back {σ α : Type} (form : Form)
    (conv : Option (List Convertor)) (save : σ → Except SaveExn α × σ)
    (s : σ) :
    (∀ a s', save s = (Except.ok a, s') →
      (transactional_save form conv save s).2.2 = s') ∧
    (∀ e s₂, save s = (Except.error e, s₂) →
      (transactional_save form conv save s).2.2 = s) := by
  constructor
  · intro a s' h
    simp [transactional_save, h]
  · intro e s₂ h
    cases e with
    | integrity ie =>
      obtain ⟨v, hv⟩ := vfi_isSome ie conv
      simp [transactional_save, h, hv]
    | validation ve =>
      simp [transactional_save, h]

/-- Witness for C4: a succeeding save commits its state change; a
failing save leaves the state as it was, although the save touched
it. -/
theorem tsave_commits_or_rolls_back_witness :
    saveOk 0 = (Except.ok 7, 1) ∧
    (transactional_save emptyForm none saveOk 0).2.2 = 1 ∧
    saveFailInteg 0 = (Except.error (SaveExn.integrity ieBoom), 1) ∧
    (transactional_save emptyForm none saveFailInteg 0).2.2 = 0 :=
  ⟨rfl, (tsave_commits_or_rolls_back emptyForm none saveOk 0).1 7 1 rfl,
   rfl, (tsave_commits_or_rolls_back emptyForm none saveFailInteg 0).2
     (SaveExn.integrity ieBoom) 1 rfl⟩

/-- C5: the view's `form_valid` stores the saved object and returns
the parent class's success response when the transactional save
succeeds; when the save raises a ValidationError the exception is
caught and `form_valid` returns `form_invalid` applied to the mutated
form — the form is redisplayed with its populated errors instead of
the request failing. -/
theorem form_valid_success_or_redisplay {σ α ρ : Type}
    (ve_from_ie : IntegrityError → Option ValidationError)
    (super_form_valid : Form → ρ) (form_invalid : Form → ρ)
    (form : Form) (save : σ → Except SaveExn α × σ) (s : σ) :
    (∀ a s', save s = (Except.ok a, s') →
      form_valid ve_from_ie super_form_valid form_invalid form save s =
        (FormValidOutcome.response (super_form_valid form) (some a),
         form, s')) ∧
    (∀ e s₂, save s = (Except.error e, s₂) →
      ∃ v form',
        transactional_save form (some [fun i => ve_from_ie i]) save s =
          (TSaveOutcome.raisedValidation v, form', s) ∧
        form_valid ve_from_ie super_form_valid form_invalid form save s =
          (FormValidOutcome.response (form_invalid form') none,
           form', s)) := by
  constructor
  · intro a s' h
    simp [form_valid, transactional_save, h]
  · intro e s₂ h
    cases e with
    | integrity ie =>
      obtain ⟨v, hv⟩ := vfi_isSome ie (some [fun i => ve_from_ie i])
      refine ⟨v, mutate_form_with_error form v, ?_, ?_⟩
      · simp [transactional_save, h, hv]
      · simp [form_valid, transactional_save, h, hv]
    | validation ve =>
      refine ⟨ve, mutate_form_with_error form ve, ?_, ?_⟩
      · simp [transactional_save, h]
      · simp [form_valid, transactional_save, h]

/-- Witness for C5: a succeeding save yields the parent's response
with the object stored; an integrity failure yields the redisplay
response. -/
theorem form_valid_success_or_redisplay_witness :
    saveOk 0 = (Except.ok 7, 1) ∧
    form_valid (fun _ => none) (fun _ => "parent") (fun _ => "redisplay")
      emptyForm saveOk 0 =
      (FormValidOutcome.response "parent" (some 7), emptyForm, 1) ∧
    saveFailInteg 0 = (Except.error (SaveExn.integrity ieBoom), 1) ∧
    (∃ v form',
      transactional_save emptyForm
          (some [fun i => (fun _ => none : Convertor) i])
          saveFailInteg 0 =
        (TSaveOutcome.raisedValidation v, form', 0) ∧
      form_valid (fun _ => none) (fun _ => "parent") (fun _ => "redisplay")
        emptyForm saveFailInteg 0 =
        (FormValidOutcome.response "redisplay" none, form', 0)) :=
  ⟨rfl,
   (form_valid_success_or_redisplay (fun _ => none) (fun _ => "parent")
      (fun _ => "redisplay") emptyForm saveOk 0).1 7 1 rfl,
   rfl,
   (form_valid_success_or_redisplay (fun _ => none) (fun _ => "parent")
      (fun _ => "redisplay") emptyForm saveFailInteg 0).2
      (SaveExn.integrity ieBoom) 1 rfl⟩

/-- C6: when the form's save returns normally, `transactional_save`
commits the save's state, returns the save's value, leaves the form
untouched — and the form, having entered with no errors as a form
that passed validation does, ends with an empty error list. -/
theorem tsave_success_empty_errors {σ α : Type} (form : Form)
    (conv : Option (List Convertor)) (save : σ → Except SaveExn α × σ)
    (s s' : σ) (a : α) (hok : save s = (Except.ok a, s'))
    (hempty : form._errors = []) :
    transactional_save form conv save s = (TSaveOutcome.ok a, form, s') ∧
    ((transactional_save form conv save s).2.1)._errors = [] := by
  have ht : transactional_save form conv save s =
      (TSaveOutcome.ok a, form, s') := by
    simp [transactional_save, hok]
  refine ⟨ht, ?_⟩
  rw [ht]
  exact hempty

/-- Witness for C6 at a concrete succeeding save. -/
theorem tsave_success_empty_errors_witness :
    saveOk 0 = (Except.ok 7, 1) ∧ emptyForm._errors = [] ∧
    (transactional_save emptyForm none saveOk 0 =
      (TSaveOutcome.ok 7, emptyForm, 1) ∧
    ((transactional_save emptyForm none saveOk 0).2.1)._errors = []) :=
  ⟨rfl, rfl,
    tsave_success_empty_errors emptyForm none saveOk 0 1 7 rfl rfl⟩

/-- C8: two overlapping saves of the same value into the unique
column, both validated against a state not yet containing it, race at
commit time: the save the database commits first succeeds, the other's
transaction observes the unique violation, is rolled back, and its
form ends with exactly one translated non-field error; the table grows
by exactly one row.  Which form occupies the winning slot is the
database's commit ordering, not this code: the theorem holds for any
two forms in either order. -/
theorem concurrent_unique_conflict (v : Int) (db : DB)
    (form₁ form₂ : Form) (hdb : v ∉ db)
    (h₁ : form₁._errors = []) (h₂ : form₂._errors = []) :
    (transactional_save form₁ none (testmodel_save v) db).1 =
      TSaveOutcome.ok v ∧
    ((transactional_save form₁ none (testmodel_save v) db).2.1)._errors
      = [] ∧
    (∃ w,
      (transactional_save form₂ none (testmodel_save v)
          (transactional_save form₁ none (testmodel_save v) db).2.2).1 =
        TSaveOutcome.raisedValidation w ∧
      w.cause = some ⟨unique_violation⟩) ∧
    ((transactional_save form₂ none (testmodel_save v)
        (transactional_save form₁ none (testmodel_save v) db).2.2).2.1)._errors
      = [(NON_FIELD_ERRORS, [unique_violation])] ∧
    ((transactional_save form₂ none (testmodel_save v)
        (transactional_save form₁ none (testmodel_save v) db).2.2).2.2).length
      = db.length + 1 := by
  have hform₂ : form₂ = ⟨[]⟩ := by
    cases form₂
    simp_all
  subst hform₂
  have hs1 : testmodel_save v db = (Except.ok v, db ++ [v]) := by
    simp [testmodel_save, hdb]
  have ht1 : transactional_save form₁ none (testmodel_save v) db =
      (TSaveOutcome.ok v, form₁, db ++ [v]) := by
    simp [transactional_save, hs1]
  have hs2 : testmodel_save v (db ++ [v]) =
      (Except.error (SaveExn.integrity ⟨unique_violation⟩), db ++ [v]) := by
    simp [testmodel_save]
  have hmut : mutate_form_with_error ⟨[]⟩
      ⟨VEContent.vlist [unique_violation], some ⟨unique_violation⟩⟩ =
      ⟨[(NON_FIELD_ERRORS, [unique_violation])]⟩ := rfl
  have ht2 : transactional_save (⟨[]⟩ : Form) none (testmodel_save v)
      (db ++ [v]) =
      (TSaveOutcome.raisedValidation
        ⟨VEContent.vlist [unique_violation], some ⟨unique_violation⟩⟩,
       ⟨[(NON_FIELD_ERRORS, [unique_violation])]⟩,
       db ++ [v]) := by
    simp [transactional_save, hs2, vfi_none, istr, hmut]
  rw [ht1]
  refine ⟨rfl, h₁, ?_, ?_, ?_⟩
  · exact ⟨⟨VEContent.vlist [unique_violation], some ⟨unique_violation⟩⟩,
      by rw [ht2], rfl⟩
  · rw [ht2]
  · rw [ht2]
    simp

/-- Witness for C8: the race run concretely on an empty table. -/
theorem concurrent_unique_conflict_witness :
    (1 : Int) ∉ ([] : DB) ∧ emptyForm._errors = [] ∧
    ((transactional_save emptyForm none (testmodel_save 1) []).1 =
      TSaveOutcome.ok 1 ∧
    ((transactional_save emptyForm none (testmodel_save 1) []).2.1)._errors
      = [] ∧
    (∃ w,
      (transactional_save emptyForm none (testmodel_save 1)
          (transactional_save emptyForm none (testmodel_save 1) []).2.2).1 =
        TSaveOutcome.raisedValidation w ∧
      w.cause = some ⟨unique_violation⟩) ∧
    ((transactional_save emptyForm none (testmodel_save 1)
        (transactional_save emptyForm none (testmodel_save 1) []).2.2).2.1)._errors
      = [(NON_FIELD_ERRORS, [unique_violation])] ∧
    ((transactional_save emptyForm none (testmodel_save 1)
        (transactional_save emptyForm none (testmodel_save 1) []).2.2).2.2).length
      = ([] : DB).length + 1) :=
  ⟨by simp, rfl,
    concurrent_unique_conflict 1 [] emptyForm emptyForm (by simp) rfl rfl⟩

/-- C2: `validationerror_from_integrityerror` applies the supplied
convertors in their given order followed by the built-in fallback, and
returns the result of the first convertor that returns non-null (with
the original error stamped as its cause); since the fallback always
wraps the raw error text as a single non-field message, the function
never returns null. -/
theorem conversion_runs_convertors_in_order_never_null
    (ie : IntegrityError) (conv : Option (List Convertor)) :
    (∀ ie2, fallback_conversion ie2 =
      some ⟨VEContent.vlist [istr ie2], none⟩) ∧
    ∃ pre c post w,
      (match conv with
       | none => []
       | some l => l) ++ DEFAULT_CONVERTORS = pre ++ c :: post ∧
      (∀ c' ∈ pre, c' ie = none) ∧
      c ie = some w ∧
      (validationerror_from_integrityerror ie conv).1 =
        some { w with cause := some ie } := by
  refine ⟨fun ie2 => rfl, ?_⟩
  obtain ⟨v, hv⟩ := vfi_isSome ie conv
  rw [vfi_run] at hv ⊢
  obtain ⟨pre, c, post, w, hl, hpre, hc, hw⟩ := convertor_loop_decompose hv
  refine ⟨pre, c, post, w, hl, hpre, hc, ?_⟩
  rw [← hw]
  exact hv

/-- C7: calling the conversion function a second time with the same
IntegrityError and the same convertors list object (whose contents the
first call extended in place) yields the very same result, hence a
ValidationError with equal fields and messages. -/
theorem conversion_twice_same_content
    (ie : IntegrityError) (conv : Option (List Convertor)) :
    (validationerror_from_integrityerror ie
        (some (validationerror_from_integrityerror ie conv).2)).1 =
      (validationerror_from_integrityerror ie conv).1 ∧
    ∃ v₁ v₂,
      (validationerror_from_integrityerror ie conv).1 = some v₁ ∧
      (validationerror_from_integrityerror ie
        (some (validationerror_from_integrityerror ie conv).2)).1 = some v₂ ∧
      v₁.content = v₂.content := by
  obtain ⟨v, hv⟩ := vfi_isSome ie conv
  have hrun := vfi_run ie conv
  have h2 : (validationerror_from_integrityerror ie
      (some (validationerror_from_integrityerror ie conv).2)).1 = some v := by
    rw [vfi_run] at hv ⊢
    simp only [hrun]
    exact convertor_loop_append_of_some DEFAULT_CONVERTORS hv
  exact ⟨by rw [h2, hv], v, v, hv, h2, rfl⟩

/-- C9: the ValidationError returned by
`validationerror_from_integrityerror` always has its `cause` field set
to the original IntegrityError. -/
theorem conversion_stamps_cause
    (ie : IntegrityError) (conv : Option (List Convertor)) :
    ∃ v, (validationerror_from_integrityerror ie conv).1 = some v ∧
      v.cause = some ie := by
  obtain ⟨v, hv⟩ := vfi_isSome ie conv
  refine ⟨v, hv, ?_⟩
  rw [vfi_run] at hv
  exact convertor_loop_cause hv

/-- C10: when a non-null convertors list is passed,
`validationerror_from_integrityerror` extends that very list with the
built-in default convertors, so the caller's list is strictly longer
after the call and grows again on a subsequent call with the same
list. -/
theorem conversion_mutates_convertors_list
    (ie : IntegrityError) (l : List Convertor) :
    (validationerror_from_integrityerror ie (some l)).2 =
      l ++ DEFAULT_CONVERTORS ∧
    l.length < (validationerror_from_integrityerror ie (some l)).2.length ∧
    (validationerror_from_integrityerror ie
        (some (validationerror_from_integrityerror ie (some l)).2)).2 =
      l ++ DEFAULT_CONVERTORS ++ DEFAULT_CONVERTORS ∧
    (validationerror_from_integrityerror ie (some l)).2.length <
      (validationerror_from_integrityerror ie
        (some (validationerror_from_integrityerror ie (some l)).2)).2.length := by
  refine ⟨rfl, ?_, rfl, ?_⟩ <;>
    simp [validationerror_from_integrityerror, DEFAULT_CONVERTORS]

end DDC
